import Mathlib

/-!
Verification of the scan-data pipeline's identity-matching and correlation engine.

Shallow embedding conventions:
* Python strings are modelled as lists of Unicode code points (`PyString`);
  `str.lower` is `pyLower`, the substring test `needle in hay` is `pyContains`.
* Python `dict`s keyed by reference URL are modelled as insertion-ordered
  association lists; `set` values used only for membership are modelled as
  the list of inserted elements.
* Nullable / possibly-missing fields are `Option`; Python truthiness of a
  string field is `pyTruthy`.
-/

/-- Python strings, modelled as lists of Unicode code points. -/
abbrev PyString := List Nat

/-- Code-point list of a Lean string literal (used to write concrete inputs). -/
def pstr (s : String) : PyString := s.toList.map Char.toNat

/-- `str.lower` on one code point (ASCII case mapping, which is all the
repository's data exercises). -/
def pyCharLower (c : Nat) : Nat := if 65 ≤ c ∧ c ≤ 90 then c + 32 else c

/-- `str.lower`. -/
def pyLower (s : PyString) : PyString := s.map pyCharLower

/-- Python's substring test `needle in hay`. -/
def pyContains (hay needle : PyString) : Bool :=
  hay.tails.any (fun t => needle.isPrefixOf t)

/-- Truthiness of an optional string field (`None` and `""` are falsy). -/
def pyTruthy (s : Option PyString) : Bool :=
  match s with
  | none => false
  | some s => !s.isEmpty

/-- The value of an optional string field where the source has already
checked truthiness. -/
def pyVal (s : Option PyString) : PyString := s.getD []

theorem pyCharLower_idem (c : Nat) : pyCharLower (pyCharLower c) = pyCharLower c := by
  unfold pyCharLower
  split <;> (try split) <;> omega

theorem pyLower_idem (s : PyString) : pyLower (pyLower s) = pyLower s := by
  unfold pyLower
  rw [List.map_map]
  exact List.map_congr_left (fun c _ => pyCharLower_idem c)

theorem pyLower_append (a b : PyString) : pyLower (a ++ b) = pyLower a ++ pyLower b := by
  simp [pyLower]

/-! ## Data model: Subject (`User`) and postal addresses

From `src/database/models.py` as consumed by `base_extractor.py` and
`base_transformer.py`: a user has first/last name, a primary email,
secondary emails, an optional primary phone, secondary phones, and postal
addresses with optional street / house number / city / country. -/

structure PostalAddress where
  street : Option PyString
  number : Option PyString
  city : Option PyString
  country : Option PyString
deriving Repr, DecidableEq

structure PyUser where
  first_name : PyString
  last_name : PyString
  email : PyString
  phone : Option PyString
  secondary_emails : List PyString
  secondary_phones : List PyString
  addresses : List PostalAddress
deriving Repr, DecidableEq

/-! ## Identifier Index (`BaseExtractor._generate_user_identifiers`) -/

/-- The four identifier groups produced by `_generate_user_identifiers`.
Python `set`s are modelled as the lists of inserted elements: the claims
only use membership, which coincides with set membership. -/
structure UserIdentifiers where
  names : List PyString
  emails : List PyString
  phones : List PyString
  addresses : List PyString
deriving Repr, DecidableEq

/-- One space code point, for f-string interpolation `f"{a} {b}"`. -/
def spc : PyString := [32]

/-- `", "`, the separator of `", ".join(components)`. -/
def commaSpc : PyString := [44, 32]

/-- The `components` list built for one address in
`_generate_user_identifiers` (lines 160-175 of `base_extractor.py`). -/
def addressComponents (a : PostalAddress) : List PyString :=
  (if pyTruthy a.street && pyTruthy a.number then
    [pyLower (pyVal a.number ++ spc ++ pyVal a.street)]
  else []) ++
  (if pyTruthy a.city then [pyLower (pyVal a.city)] else []) ++
  (if pyTruthy a.country then [pyLower (pyVal a.country)] else [])

/-- The address identifiers contributed by one address
(lines 177-192 of `base_extractor.py`). -/
def addressContribution (a : PostalAddress) : List PyString :=
  if 2 ≤ (addressComponents a).length then
    (if 3 ≤ (addressComponents a).length then
      [List.intercalate commaSpc (addressComponents a)]
    else []) ++
    (if decide (2 ≤ (addressComponents a).length) &&
        (pyTruthy a.street && pyTruthy a.number && pyTruthy a.city) then
      [pyLower (pyVal a.number ++ spc ++ pyVal a.street ++ commaSpc ++ pyVal a.city)]
    else []) ++
    (if pyTruthy a.city && pyTruthy a.country && decide (2 ≤ (addressComponents a).length) then
      [pyLower (pyVal a.city ++ commaSpc ++ pyVal a.country)]
    else [])
  else []

/-- `BaseExtractor._generate_user_identifiers`. -/
def generateUserIdentifiers (u : PyUser) : UserIdentifiers :=
  let first := pyLower u.first_name
  let last := pyLower u.last_name
  let full := first ++ spc ++ last
  { names := [full, first ++ last, last ++ first, u.first_name ++ spc ++ u.last_name]
    emails := pyLower u.email :: u.secondary_emails.map pyLower
    phones := (if pyTruthy u.phone then [pyVal u.phone] else []) ++ u.secondary_phones
    addresses := (u.addresses.map addressContribution).flatten }

/-- A concrete subject used in counterexamples. -/
def janeUser : PyUser :=
  { first_name := pstr "Jane"
    last_name := pstr "Doe"
    email := pstr "jane@x.com"
    phone := some (pstr "0555")
    secondary_emails := []
    secondary_phones := []
    addresses := [] }

theorem intercalate_cons_cons (s a b : PyString) (t : List PyString) :
    List.intercalate s (a :: b :: t) = a ++ s ++ List.intercalate s (b :: t) := by
  simp [List.intercalate, List.intersperse_cons_cons, List.append_assoc]

theorem pyLower_intercalate :
    ∀ l : List PyString, (∀ x ∈ l, pyLower x = x) →
      pyLower (List.intercalate commaSpc l) = List.intercalate commaSpc l
  | [], _ => by simp [List.intercalate, pyLower]
  | [a], h => by simpa [List.intercalate, List.intersperse] using h a (by simp)
  | a :: b :: t, h => by
    rw [intercalate_cons_cons, pyLower_append, pyLower_append, h a (by simp),
      (by decide : pyLower commaSpc = commaSpc),
      pyLower_intercalate (b :: t) (fun x hx => h x (by simp [hx]))]

theorem addressComponents_lower (a : PostalAddress) :
    ∀ x ∈ addressComponents a, pyLower x = x := by
  intro x hx
  unfold addressComponents at hx
  simp only [List.mem_append] at hx
  rcases hx with (hx | hx) | hx <;>
    · split at hx <;> simp_all
      exact pyLower_idem _

theorem addressContribution_lower (a : PostalAddress) :
    ∀ x ∈ addressContribution a, pyLower x = x := by
  intro x hx
  unfold addressContribution at hx
  split at hx
  · simp only [List.mem_append] at hx
    rcases hx with (hx | hx) | hx
    · split at hx <;> simp_all
      exact pyLower_intercalate _ (addressComponents_lower a)
    · split at hx <;> simp_all
      exact pyLower_idem _
    · split at hx <;> simp_all
      exact pyLower_idem _
  · simp at hx

/-- C2: every string in the emails and addresses groups is lower-cased; in
the names group, every string except the deliberately kept original-case
full name is lower-cased; phone strings are taken as stored from the
subject record, not case-folded. -/
theorem identifiers_lowercase_amended (u : PyUser) :
    (∀ s ∈ (generateUserIdentifiers u).emails, pyLower s = s) ∧
    (∀ s ∈ (generateUserIdentifiers u).addresses, pyLower s = s) ∧
    (∀ s ∈ (generateUserIdentifiers u).names,
        s = u.first_name ++ spc ++ u.last_name ∨ pyLower s = s) ∧
    (∀ s ∈ (generateUserIdentifiers u).phones,
        s = pyVal u.phone ∨ s ∈ u.secondary_phones) := by
  refine ⟨?_, ?_, ?_, ?_⟩
  · intro s hs
    simp only [generateUserIdentifiers, List.mem_cons, List.mem_map] at hs
    rcases hs with rfl | ⟨e, _, rfl⟩ <;> exact pyLower_idem _
  · intro s hs
    simp only [generateUserIdentifiers, List.mem_flatten, List.mem_map] at hs
    obtain ⟨l, ⟨a, _, rfl⟩, hsl⟩ := hs
    exact addressContribution_lower a s hsl
  · intro s hs
    simp only [generateUserIdentifiers, List.mem_cons, List.not_mem_nil, or_false] at hs
    rcases hs with rfl | rfl | rfl | rfl
    · right
      rw [pyLower_append, pyLower_append, pyLower_idem, pyLower_idem,
        (by decide : pyLower spc = spc)]
    · right; rw [pyLower_append, pyLower_idem, pyLower_idem]
    · right; rw [pyLower_append, pyLower_idem, pyLower_idem]
    · left; rfl
  · intro s hs
    simp only [generateUserIdentifiers, List.mem_append] at hs
    rcases hs with hs | hs
    · left
      split at hs <;> simp_all
    · right; exact hs

/-- C2 counterexample: the names group of the Identifier Index keeps the
subject's original-case full name, so it is not lower-cased. -/
theorem identifiers_lowercase_counterexample :
    pstr "Jane Doe" ∈ (generateUserIdentifiers janeUser).names ∧
    pyLower (pstr "Jane Doe") ≠ pstr "Jane Doe" := by decide

/-- C2 witness: the amended theorem applied to a concrete subject and a
concrete member of each group. -/
theorem identifiers_lowercase_witness :
    pyLower (pstr "jane@x.com") = pstr "jane@x.com" :=
  (identifiers_lowercase_amended janeUser).1 (pstr "jane@x.com") (by decide)

/-- A concrete address with street+number and city but no country. -/
def bakerAddress : PostalAddress :=
  { street := some (pstr "Baker St")
    number := some (pstr "221b")
    city := some (pstr "London")
    country := none }

/-- A concrete subject owning only `bakerAddress`. -/
def bakerUser : PyUser :=
  { janeUser with addresses := [bakerAddress] }

/-- C4: an address identifier exists only when some subject address has at
least 2 of the components {street+number, city, country}; an address with
exactly street+number and city contributes exactly the street+city tier
string (so the full-triple tier string is absent); an address with fewer
than 2 components contributes nothing. -/
theorem address_identifier_tiers (u : PyUser) :
    (∀ s ∈ (generateUserIdentifiers u).addresses,
        ∃ a ∈ u.addresses, 2 ≤ (addressComponents a).length) ∧
    (∀ a ∈ u.addresses,
        pyTruthy a.street = true → pyTruthy a.number = true → pyTruthy a.city = true →
        pyTruthy a.country = false →
        addressContribution a =
          [pyLower (pyVal a.number ++ spc ++ pyVal a.street ++ commaSpc ++ pyVal a.city)] ∧
        pyLower (pyVal a.number ++ spc ++ pyVal a.street ++ commaSpc ++ pyVal a.city) ∈
          (generateUserIdentifiers u).addresses) ∧
    (∀ a : PostalAddress, (addressComponents a).length < 2 → addressContribution a = []) := by
  refine ⟨?_, ?_, ?_⟩
  · intro s hs
    simp only [generateUserIdentifiers, List.mem_flatten, List.mem_map] at hs
    obtain ⟨l, ⟨a, ha, rfl⟩, hsl⟩ := hs
    refine ⟨a, ha, ?_⟩
    by_contra h
    rw [addressContribution] at hsl
    rw [if_neg h] at hsl
    exact absurd hsl (List.not_mem_nil s)
  · intro a ha hst hnum hcity hcountry
    have hcomp : addressComponents a =
        [pyLower (pyVal a.number ++ spc ++ pyVal a.street), pyLower (pyVal a.city)] := by
      unfold addressComponents
      rw [hst, hnum, hcity, hcountry]
      simp
    have hcontrib : addressContribution a =
        [pyLower (pyVal a.number ++ spc ++ pyVal a.street ++ commaSpc ++ pyVal a.city)] := by
      unfold addressContribution
      rw [hcomp, hst, hnum, hcity, hcountry]
      simp
    refine ⟨hcontrib, ?_⟩
    simp only [generateUserIdentifiers, List.mem_flatten, List.mem_map]
    exact ⟨addressContribution a, ⟨a, ha, rfl⟩, by rw [hcontrib]; simp⟩
  · intro a h
    unfold addressContribution
    rw [if_neg (by omega)]

/-- C4 witness: the theorem applied to a concrete subject with exactly
street+number+city; witnesses both the contribution equation and set
membership of the street+city tier string. -/
theorem address_identifier_tiers_witness :
    addressContribution bakerAddress = [pstr "221b baker st, london"] ∧
    pstr "221b baker st, london" ∈ (generateUserIdentifiers bakerUser).addresses := by
  have h := (address_identifier_tiers bakerUser).2.1 bakerAddress (by decide)
    (by decide) (by decide) (by decide) (by decide)
  have he : pyLower (pyVal bakerAddress.number ++ spc ++ pyVal bakerAddress.street ++
      commaSpc ++ pyVal bakerAddress.city) = pstr "221b baker st, london" := by decide
  exact ⟨he ▸ h.1, he ▸ h.2⟩

/-! ## Facet analysis (`BaseTransformer._analyze_text_for_identities`) -/

/-- `PersonalIdentityType` from `src/config/enums.py`. -/
inductive PersonalIdentityType where
  | phone
  | name
  | picture
  | address
deriving Repr, DecidableEq

/-- The per-address `address_components` list of
`_analyze_text_for_identities` (street, city, country; no house number). -/
def textAddressComponents (a : PostalAddress) : List PyString :=
  (if pyTruthy a.street then [pyLower (pyVal a.street)] else []) ++
  (if pyTruthy a.city then [pyLower (pyVal a.city)] else []) ++
  (if pyTruthy a.country then [pyLower (pyVal a.country)] else [])

/-- `BaseTransformer._analyze_text_for_identities`.  The sequential appends
of the source are modelled as concatenation in program order: the name
check appends at most once; the primary-phone check and the
secondary-phone loop (which breaks after its first hit) each append at
most once; the address loop breaks at the first address with a matching
component, appending at most once. -/
def analyzeTextForIdentities (u : PyUser) (text : PyString) : List PersonalIdentityType :=
  if text.isEmpty then []
  else
    (if pyContains (pyLower text) (pyLower (u.first_name ++ spc ++ u.last_name)) ||
        pyContains (pyLower text) (pyLower u.first_name) ||
        pyContains (pyLower text) (pyLower u.last_name) then
      [PersonalIdentityType.name]
    else []) ++
    (if pyTruthy u.phone && pyContains text (pyVal u.phone) then
      [PersonalIdentityType.phone]
    else []) ++
    (if u.secondary_phones.any (fun p => pyContains text p) then
      [PersonalIdentityType.phone]
    else []) ++
    (if u.addresses.any (fun a =>
        (textAddressComponents a).any (fun c => pyContains (pyLower text) c)) then
      [PersonalIdentityType.address]
    else [])

/-- C3: presence of each facet matches the claimed substring conditions,
but the phone facet can be appended twice (once for the primary phone and
once for a secondary phone), so the returned list is not duplicate-free;
name and address each occur at most once and picture never occurs. -/
theorem analyze_text_facets_amended (u : PyUser) (text : PyString) (h : text ≠ []) :
    (PersonalIdentityType.name ∈ analyzeTextForIdentities u text ↔
      (pyContains (pyLower text) (pyLower (u.first_name ++ spc ++ u.last_name)) ||
       pyContains (pyLower text) (pyLower u.first_name) ||
       pyContains (pyLower text) (pyLower u.last_name)) = true) ∧
    (PersonalIdentityType.phone ∈ analyzeTextForIdentities u text ↔
      ((pyTruthy u.phone && pyContains text (pyVal u.phone)) = true ∨
       (u.secondary_phones.any (fun p => pyContains text p)) = true)) ∧
    (PersonalIdentityType.address ∈ analyzeTextForIdentities u text ↔
      (u.addresses.any (fun a =>
        (textAddressComponents a).any (fun c => pyContains (pyLower text) c))) = true) ∧
    PersonalIdentityType.picture ∉ analyzeTextForIdentities u text ∧
    (analyzeTextForIdentities u text).count PersonalIdentityType.name ≤ 1 ∧
    (analyzeTextForIdentities u text).count PersonalIdentityType.address ≤ 1 ∧
    (analyzeTextForIdentities u text).count PersonalIdentityType.phone ≤ 2 := by
  have hne : text.isEmpty = false := by
    cases text with
    | nil => exact absurd rfl h
    | cons a t => rfl
  unfold analyzeTextForIdentities
  rw [hne]
  simp only [Bool.false_eq_true, if_false]
  cases hA : (pyContains (pyLower text) (pyLower (u.first_name ++ spc ++ u.last_name)) ||
      pyContains (pyLower text) (pyLower u.first_name) ||
      pyContains (pyLower text) (pyLower u.last_name)) <;>
    cases hB : (pyTruthy u.phone && pyContains text (pyVal u.phone)) <;>
    cases hC : (u.secondary_phones.any (fun p => pyContains text p)) <;>
    cases hD : (u.addresses.any (fun a =>
        (textAddressComponents a).any (fun c => pyContains (pyLower text) c))) <;>
    simp [hA, hB, hC, hD, List.count_cons]

/-- A concrete subject whose primary and secondary phone both occur in the
text below. -/
def qqzzUser : PyUser :=
  { first_name := pstr "qq"
    last_name := pstr "zz"
    email := pstr "q@z.com"
    phone := some (pstr "111")
    secondary_emails := []
    secondary_phones := [pstr "222"]
    addresses := [] }

/-- C3 counterexample: with both the primary phone and a secondary phone
appearing in the text, the phone facet occurs twice in the returned
collection, refuting "each facet type occurs at most once". -/
theorem analyze_text_facets_counterexample :
    (analyzeTextForIdentities qqzzUser (pstr "111 222")).count PersonalIdentityType.phone = 2 ∧
    ¬ ((analyzeTextForIdentities qqzzUser (pstr "111 222")).count PersonalIdentityType.phone ≤ 1) := by
  decide

/-- C3 witness: the amended theorem applied at a concrete subject and text. -/
theorem analyze_text_facets_witness :
    PersonalIdentityType.phone ∈ analyzeTextForIdentities qqzzUser (pstr "111 222") :=
  ((analyze_text_facets_amended qqzzUser (pstr "111 222") (by decide)).2.1).mpr
    (Or.inl (by decide))

/-! ## Footprint Resolver: derived media locator
(`BaseTransformer._construct_media_filepath`)

URL parsing is modelled after `urllib.parse.urlparse` restricted to what the
pipeline's URLs exercise: an optional `scheme://netloc` prefix, and a path
terminated by `?` or `#`; the extension is `pathlib.Path(...).suffix`
(last-dot rule, no suffix for dotfiles or trailing dots). -/

/-- `DigitalFootprintType` from `src/config/enums.py`. -/
inductive DigitalFootprintType where
  | image
  | video
  | text
  | audio
deriving Repr, DecidableEq

/-- The characters following the first `://`, if any. -/
def afterScheme : PyString → Option PyString
  | [] => none
  | c :: rest =>
    if c = 58 ∧ [47, 47].isPrefixOf rest then some (rest.drop 2)
    else afterScheme rest

/-- `urlparse(url).path`: drop `scheme://netloc`, cut query and fragment. -/
def urlPath (url : PyString) : PyString :=
  let pathPart :=
    match afterScheme url with
    | some rest => rest.dropWhile (fun c => c ≠ 47)
    | none => url
  (pathPart.takeWhile (fun c => c ≠ 35)).takeWhile (fun c => c ≠ 63)

/-- The final path component (`pathlib.PurePath.name`). -/
def pathName (p : PyString) : PyString :=
  (p.reverse.takeWhile (fun c => c ≠ 47)).reverse

/-- `pathlib.PurePath.suffix` of a path name: the part from the last dot,
empty when the dot is first or last. -/
def pySuffix (name : PyString) : PyString :=
  let rev := name.reverse
  let j := rev.findIdx (fun c => c == 46)
  if 46 ∈ name ∧ 1 ≤ j ∧ j < name.length - 1 then (rev.take (j + 1)).reverse else []

/-- `file_extension = Path(parsed_url.path).suffix.lower()`. -/
def urlFileExtension (url : PyString) : PyString :=
  pyLower (pySuffix (pathName (urlPath url)))

/-- `ImageSuffix` members from `src/config/enums.py`. -/
def imageSuffixes : List PyString := [pstr ".png", pstr ".jpg", pstr ".jpeg", pstr ".gif"]

/-- `VideoSuffix` members from `src/config/enums.py`. -/
def videoSuffixes : List PyString := [pstr ".mp4", pstr ".avi", pstr ".wmv", pstr ".mkv"]

/-- `BaseTransformer._construct_media_filepath`.  `XxxSuffix.has_value`
lower-cases its argument before the membership test, hence the inner
`pyLower`. -/
def constructMediaFilepath (url : PyString) (t : DigitalFootprintType) : Option PyString :=
  match t with
  | .text => none
  | .image =>
    if imageSuffixes.contains (pyLower (urlFileExtension url)) then
      some (pstr "src/media/images/mock_image" ++ urlFileExtension url)
    else
      some (pstr "src/media/images/mock_image.jpg")
  | .video =>
    if videoSuffixes.contains (pyLower (urlFileExtension url)) then
      some (pstr "src/media/videos/mock_video" ++ urlFileExtension url)
    else
      some (pstr "src/media/videos/mock_video.mp4")
  | .audio => some (pstr "src/media/audios/mock_audio.mp3")

/-- C5: text footprints get no media locator; an image/video URL with a
recognized extension maps to the placeholder carrying that extension and
otherwise to the fixed jpg/mp4 default; audio always maps to the single
mp3 placeholder. -/
theorem media_filepath_cases (url : PyString) :
    constructMediaFilepath url .text = none ∧
    constructMediaFilepath url .audio = some (pstr "src/media/audios/mock_audio.mp3") ∧
    (urlFileExtension url ∈ imageSuffixes →
      constructMediaFilepath url .image =
        some (pstr "src/media/images/mock_image" ++ urlFileExtension url)) ∧
    (urlFileExtension url ∉ imageSuffixes →
      constructMediaFilepath url .image = some (pstr "src/media/images/mock_image.jpg")) ∧
    (urlFileExtension url ∈ videoSuffixes →
      constructMediaFilepath url .video =
        some (pstr "src/media/videos/mock_video" ++ urlFileExtension url)) ∧
    (urlFileExtension url ∉ videoSuffixes →
      constructMediaFilepath url .video = some (pstr "src/media/videos/mock_video.mp4")) := by
  have hlow : pyLower (urlFileExtension url) = urlFileExtension url :=
    pyLower_idem _
  refine ⟨rfl, rfl, ?_, ?_, ?_, ?_⟩ <;> intro h <;>
    simp [constructMediaFilepath, hlow, h]

/-- C5 witness (end-to-end scenario B): an image URL whose path ends in
`.png` resolves to the png placeholder, not the jpg default. -/
theorem media_filepath_witness :
    constructMediaFilepath (pstr "https://example.com/photos/pic.png") .image =
      some (pstr "src/media/images/mock_image.png") := by
  have h := (media_filepath_cases (pstr "https://example.com/photos/pic.png")).2.2.1
    (by decide)
  rw [h]
  decide

/-! ## Pending-fact accumulation
(`BaseTransformer._track_pending_identity` / `_track_pending_activity_log`)

Python `dict`s keyed by reference URL are insertion-ordered association
lists; `datetime` timestamps are opaque and compared by equality, modelled
as `Nat`. -/

abbrev Timestamp := Nat

/-- In-memory `DigitalFootprint` (storage id possibly not assigned yet). -/
structure DigitalFootprintRec where
  id : Option Nat
  ftype : DigitalFootprintType
  media_filepath : Option PyString
  reference_url : PyString
  source_id : Option Nat
deriving Repr, DecidableEq

/-- Insertion-ordered association list modelling a Python `dict`. -/
abbrev PendingMap (α : Type) := List (PyString × List α)

def alistGet {α : Type} (m : PendingMap α) (k : PyString) : Option (List α) :=
  (m.find? (fun kv => kv.1 == k)).map (fun kv => kv.2)

def alistSet {α : Type} (m : PendingMap α) (k : PyString) (v : List α) : PendingMap α :=
  match m with
  | [] => [(k, v)]
  | kv :: rest => if kv.1 == k then (k, v) :: rest else kv :: alistSet rest k v

theorem alistGet_set {α : Type} (m : PendingMap α) (k : PyString) (v : List α) :
    alistGet (alistSet m k v) k = some v := by
  induction m with
  | nil => simp [alistSet, alistGet]
  | cons kv rest ih =>
    show alistGet (if kv.1 == k then (k, v) :: rest else kv :: alistSet rest k v) k = some v
    by_cases h : (kv.1 == k) = true
    · rw [if_pos h]
      simp [alistGet]
    · rw [if_neg h]
      unfold alistGet
      rw [List.find?_cons_of_neg _ (by simpa using h)]
      exact ih

/-- `processing_stats` counters of a `TransformationResult`. -/
structure ProcessingStats where
  items_processed : Nat
  footprints_found : Nat
  new_footprints : Nat
  existing_footprints : Nat
  identities_detected : Nat
  media_files_processed : Nat
  videos_transcribed : Nat
  face_matches_found : Nat
deriving Repr, DecidableEq

def ProcessingStats.zero : ProcessingStats := ⟨0, 0, 0, 0, 0, 0, 0, 0⟩

/-- Key-wise sum of stats dictionaries (the merge loops add every counter). -/
def addStats (a b : ProcessingStats) : ProcessingStats :=
  ⟨a.items_processed + b.items_processed,
   a.footprints_found + b.footprints_found,
   a.new_footprints + b.new_footprints,
   a.existing_footprints + b.existing_footprints,
   a.identities_detected + b.identities_detected,
   a.media_files_processed + b.media_files_processed,
   a.videos_transcribed + b.videos_transcribed,
   a.face_matches_found + b.face_matches_found⟩

/-- `TransformationResult` from `base_transformer.py`. -/
structure TransformationResult where
  new_digital_footprints : List DigitalFootprintRec
  personal_identities : List (Nat × PersonalIdentityType)
  activity_logs : List (Nat × Timestamp)
  pending_identities : PendingMap PersonalIdentityType
  pending_activity_logs : PendingMap Timestamp
  processing_stats : ProcessingStats
deriving Repr, DecidableEq

/-- A freshly constructed `TransformationResult()`. -/
def TransformationResult.empty : TransformationResult :=
  ⟨[], [], [], [], [], ProcessingStats.zero⟩

/-- `BaseTransformer._track_pending_identity`; the returned `Bool` is the
is-new flag, the returned result reflects the in-place mutation. -/
def trackPendingIdentity (result : TransformationResult) (fp : DigitalFootprintRec)
    (identity_type : PersonalIdentityType) : Bool × TransformationResult :=
  let ref := fp.reference_url
  let cur := (alistGet result.pending_identities ref).getD []
  if identity_type ∈ cur then
    (false, { result with pending_identities := alistSet result.pending_identities ref cur })
  else
    (true, { result with
      pending_identities := alistSet result.pending_identities ref (cur ++ [identity_type]) })

/-- `BaseTransformer._track_pending_activity_log`; the default-to-now
branch is resolved by the caller passing the concrete timestamp. -/
def trackPendingActivityLog (result : TransformationResult) (fp : DigitalFootprintRec)
    (timestamp : Timestamp) : Bool × TransformationResult :=
  let ref := fp.reference_url
  let cur := (alistGet result.pending_activity_logs ref).getD []
  if timestamp ∈ cur then
    (false, { result with pending_activity_logs := alistSet result.pending_activity_logs ref cur })
  else
    (true, { result with
      pending_activity_logs := alistSet result.pending_activity_logs ref (cur ++ [timestamp]) })

/-- The stored pending-identity list for a reference URL. -/
def pendingIdentityList (r : TransformationResult) (ref : PyString) :
    List PersonalIdentityType :=
  (alistGet r.pending_identities ref).getD []

/-- The stored pending-activity list for a reference URL. -/
def pendingActivityList (r : TransformationResult) (ref : PyString) : List Timestamp :=
  (alistGet r.pending_activity_logs ref).getD []

/-- C6: tracking the same (reference URL, facet) or (reference URL,
timestamp) pair twice returns `false` on the second call and leaves the
stored list for that reference URL unchanged. -/
theorem track_pending_idempotent (r : TransformationResult) (fp : DigitalFootprintRec)
    (it : PersonalIdentityType) (ts : Timestamp) :
    (trackPendingIdentity (trackPendingIdentity r fp it).2 fp it).1 = false ∧
    pendingIdentityList (trackPendingIdentity (trackPendingIdentity r fp it).2 fp it).2
        fp.reference_url =
      pendingIdentityList (trackPendingIdentity r fp it).2 fp.reference_url ∧
    (trackPendingActivityLog (trackPendingActivityLog r fp ts).2 fp ts).1 = false ∧
    pendingActivityList (trackPendingActivityLog (trackPendingActivityLog r fp ts).2 fp ts).2
        fp.reference_url =
      pendingActivityList (trackPendingActivityLog r fp ts).2 fp.reference_url := by
  refine ⟨?_, ?_, ?_, ?_⟩
  · unfold trackPendingIdentity
    by_cases h : it ∈ (alistGet r.pending_identities fp.reference_url).getD [] <;>
      simp [h, alistGet_set]
  · unfold trackPendingIdentity pendingIdentityList
    by_cases h : it ∈ (alistGet r.pending_identities fp.reference_url).getD [] <;>
      simp [h, alistGet_set]
  · unfold trackPendingActivityLog
    by_cases h : ts ∈ (alistGet r.pending_activity_logs fp.reference_url).getD [] <;>
      simp [h, alistGet_set]
  · unfold trackPendingActivityLog pendingActivityList
    by_cases h : ts ∈ (alistGet r.pending_activity_logs fp.reference_url).getD [] <;>
      simp [h, alistGet_set]

/-! ## Concurrent Batch Pipeline: chunk sizing
(`BaseTransformer._calculate_chunk_size`, `_chunk_data`)

`os.cpu_count()` is an environment input, passed as a parameter; the value
`0` models Python's `None` (the source applies `or 4`).  The `try` body
cannot raise, so the `except` fallback is dead code. -/

/-- `BaseTransformer._calculate_chunk_size`. -/
def calculateChunkSize (cpuCount total_items : Nat) : Nat :=
  let cpu_count := if cpuCount = 0 then 4 else cpuCount
  let optimal_chunks := min cpu_count 8
  let calculated_size := max 10 (total_items / optimal_chunks)
  min 50 calculated_size

/-- `BaseTransformer._chunk_data`:
`[data[i:i+chunk_size] for i in range(0, len(data), chunk_size)]`.
A zero chunk size raises `ValueError` in Python (`range` step 0) and is
never produced by `_calculate_chunk_size`; it is mapped to `[]`. -/
def chunkData {α : Type} : List α → Nat → List (List α)
  | _, 0 => []
  | [], _ + 1 => []
  | a :: l, cs + 1 =>
    ((a :: l).take (cs + 1)) :: chunkData ((a :: l).drop (cs + 1)) (cs + 1)
termination_by l _ => l.length
decreasing_by simp [List.length_drop]; omega

theorem chunkData_flatten {α : Type} :
    ∀ (fuel : Nat) (l : List α) (cs : Nat), l.length ≤ fuel →
      (chunkData l (cs + 1)).flatten = l := by
  intro fuel
  induction fuel with
  | zero =>
    intro l cs h
    have hl : l = [] := List.eq_nil_of_length_eq_zero (Nat.le_zero.mp h)
    subst hl
    simp [chunkData]
  | succ n ih =>
    intro l cs h
    cases l with
    | nil => simp [chunkData]
    | cons a t =>
      rw [chunkData]
      rw [List.flatten_cons, ih ((a :: t).drop (cs + 1)) cs
        (by simp only [List.length_drop, List.length_cons] at h ⊢; omega)]
      exact List.take_append_drop (cs + 1) (a :: t)

theorem chunkData_length_bounds {α : Type} :
    ∀ (fuel : Nat) (l : List α) (cs : Nat), l.length ≤ fuel →
      l.length ≤ (chunkData l (cs + 1)).length * (cs + 1) ∧
      (chunkData l (cs + 1)).length * (cs + 1) < l.length + (cs + 1) := by
  intro fuel
  induction fuel with
  | zero =>
    intro l cs h
    have hl : l = [] := List.eq_nil_of_length_eq_zero (Nat.le_zero.mp h)
    subst hl
    simp [chunkData]
  | succ n ih =>
    intro l cs h
    cases l with
    | nil => simp [chunkData]
    | cons a t =>
      rw [chunkData]
      have hrec := ih ((a :: t).drop (cs + 1)) cs
        (by simp only [List.length_drop, List.length_cons] at h ⊢; omega)
      simp only [List.length_cons, List.length_drop] at h hrec ⊢
      rw [Nat.succ_mul]
      rcases Nat.eq_zero_or_pos
          (chunkData (List.drop (cs + 1) (a :: t)) (cs + 1)).length with h0 | h1
      · rw [h0] at hrec ⊢
        simp only [Nat.zero_mul] at hrec ⊢
        omega
      · have hge : cs + 1 ≤ (chunkData (List.drop (cs + 1) (a :: t)) (cs + 1)).length * (cs + 1) :=
          Nat.le_mul_of_pos_left (cs + 1) h1
        omega

/-- C7: the chunk size is always between 10 and 50; the number of chunk
tasks launched is not capped at 8 in general, but is bounded by
`max 9 (ceil (n / 50))` (the 50-item cap on chunk size makes the task
count grow linearly for large inputs, and floor division can produce one
extra chunk even below the cap). -/
theorem chunk_size_bounds_amended (cpuCount n : Nat) (h : 0 < n) :
    10 ≤ calculateChunkSize cpuCount n ∧
    calculateChunkSize cpuCount n ≤ 50 ∧
    ∀ l : List Nat, l.length = n →
      (chunkData l (calculateChunkSize cpuCount n)).length ≤ max 9 ((n + 49) / 50) := by
  have hcs_eq : calculateChunkSize cpuCount n =
      min 50 (max 10 (n / min (if cpuCount = 0 then 4 else cpuCount) 8)) := rfl
  have hk0 : 0 < min (if cpuCount = 0 then 4 else cpuCount) 8 := by
    have : 0 < (if cpuCount = 0 then 4 else cpuCount) := by split <;> omega
    omega
  have hk8 : min (if cpuCount = 0 then 4 else cpuCount) 8 ≤ 8 := by omega
  have hq := Nat.div_add_mod n (min (if cpuCount = 0 then 4 else cpuCount) 8)
  have hr := Nat.mod_lt n hk0
  refine ⟨by rw [hcs_eq]; omega, by rw [hcs_eq]; omega, ?_⟩
  intro l hl
  have h10 : 10 ≤ calculateChunkSize cpuCount n := by rw [hcs_eq]; omega
  have hsucc : calculateChunkSize cpuCount n - 1 + 1 = calculateChunkSize cpuCount n := by
    omega
  have hb := chunkData_length_bounds l.length l (calculateChunkSize cpuCount n - 1) le_rfl
  rw [hsucc, hl] at hb
  rcases Nat.lt_or_ge (n / min (if cpuCount = 0 then 4 else cpuCount) 8) 10 with hql | hqh
  · -- small quotient: chunk size is the minimum 10 and n itself is small
    have hcs10 : calculateChunkSize cpuCount n = 10 := by rw [hcs_eq]; omega
    have hmul : min (if cpuCount = 0 then 4 else cpuCount) 8 *
        (n / min (if cpuCount = 0 then 4 else cpuCount) 8) ≤ 8 * 9 :=
      Nat.mul_le_mul hk8 (by omega)
    rw [hcs10] at hb ⊢
    omega
  rcases Nat.lt_or_ge (n / min (if cpuCount = 0 then 4 else cpuCount) 8) 50 with hqm | hqq
  · -- mid quotient: chunk size is the quotient itself
    have hcsq : calculateChunkSize cpuCount n =
        n / min (if cpuCount = 0 then 4 else cpuCount) 8 := by rw [hcs_eq]; omega
    rw [hcsq] at hb ⊢
    have hlt : (chunkData l (n / min (if cpuCount = 0 then 4 else cpuCount) 8)).length <
        min (if cpuCount = 0 then 4 else cpuCount) 8 + 2 := by
      by_contra hge
      push_neg at hge
      have h2 := Nat.mul_le_mul_right
        (n / min (if cpuCount = 0 then 4 else cpuCount) 8) hge
      rw [Nat.add_mul] at h2
      omega
    omega
  · -- large quotient: chunk size is capped at 50
    have hcs50 : calculateChunkSize cpuCount n = 50 := by rw [hcs_eq]; omega
    rw [hcs50] at hb ⊢
    omega

/-- C7 counterexample: at 1000 items (with 4 CPUs reported) the computed
chunk size is 50 and `_chunk_data` produces 20 chunks, each launched as a
concurrent task, refuting the at-most-8 bound. -/
theorem chunk_concurrency_counterexample :
    calculateChunkSize 4 1000 = 50 ∧
    (chunkData (List.range 1000) (calculateChunkSize 4 1000)).length = 20 ∧
    ¬ ((chunkData (List.range 1000) (calculateChunkSize 4 1000)).length ≤ 8) := by
  have hcs : calculateChunkSize 4 1000 = 50 := by decide
  have hb := chunkData_length_bounds (List.range 1000).length (List.range 1000) 49 le_rfl
  norm_num [List.length_range] at hb
  have hL : (chunkData (List.range 1000) 50).length = 20 := by omega
  rw [hcs, hL]
  omega

/-- C7 witness: the amended bounds at a concrete input. -/
theorem chunk_size_bounds_witness :
    10 ≤ calculateChunkSize 4 23 ∧ calculateChunkSize 4 23 ≤ 50 ∧
    (chunkData (List.range 23) (calculateChunkSize 4 23)).length ≤ max 9 ((23 + 49) / 50) :=
  ⟨(chunk_size_bounds_amended 4 23 (by decide)).1,
   (chunk_size_bounds_amended 4 23 (by decide)).2.1,
   (chunk_size_bounds_amended 4 23 (by decide)).2.2 (List.range 23) (by simp)⟩

/-! ## Batch pipeline merging (`_process_batch`, `_process_all_batches`,
`UnifiedTransformer._merge_results`)

The three merge sites share the same loop body.  `list(set(x))` is
modelled as `x.dedup`; Python's set iteration order is unspecified, and
the merged facts are consumed by membership only. -/

/-- The pending-map merge loop: for each key of the incoming map, extend
the accumulated entry and rebuild it deduplicated. -/
def mergePending {α : Type} [DecidableEq α] (main incoming : PendingMap α) : PendingMap α :=
  incoming.foldl
    (fun m kv => alistSet m kv.1 (((alistGet m kv.1).getD [] ++ kv.2).dedup)) main

/-- Merge of one item/batch/transformer result into the accumulating
result: concatenate entity lists, merge pending maps with deduplication,
sum all stats counters. -/
def mergeResults (main item : TransformationResult) : TransformationResult :=
  { new_digital_footprints := main.new_digital_footprints ++ item.new_digital_footprints
    personal_identities := main.personal_identities ++ item.personal_identities
    activity_logs := main.activity_logs ++ item.activity_logs
    pending_identities := mergePending main.pending_identities item.pending_identities
    pending_activity_logs := mergePending main.pending_activity_logs item.pending_activity_logs
    processing_stats := addStats main.processing_stats item.processing_stats }

/-- `BaseTransformer._process_batch`, parameterized by the abstract
`_process_item` (which may raise, modelled by `Except`): items run
sequentially, a per-item exception is caught and the item skipped. -/
def processBatch {ι : Type} (f : ι → Except PyString TransformationResult)
    (items : List ι) : TransformationResult :=
  items.foldl
    (fun acc item =>
      match f item with
      | .ok item_result => mergeResults acc item_result
      | .error _ => acc)
    TransformationResult.empty

/-- `BaseTransformer._process_all_batches` with the chunk size made
explicit: chunk the items, run `_process_batch` per chunk, and merge the
batch results in order.  `_process_batch` is total, so the
gather-exception branch is dead; `asyncio.gather` preserves task order. -/
def processAllBatchesWith {ι : Type} (f : ι → Except PyString TransformationResult)
    (items : List ι) (chunk_size : Nat) : TransformationResult :=
  if items.isEmpty then TransformationResult.empty
  else
    (chunkData items chunk_size).foldl
      (fun main chunk => mergeResults main (processBatch f chunk))
      TransformationResult.empty

/-- `BaseTransformer._process_all_batches` proper, with the chunk size
computed by `_calculate_chunk_size` from the reported CPU count. -/
def processAllBatches {ι : Type} (f : ι → Except PyString TransformationResult)
    (cpuCount : Nat) (items : List ι) : TransformationResult :=
  processAllBatchesWith f items (calculateChunkSize cpuCount items.length)

theorem mergeResults_items_processed (a b : TransformationResult) :
    (mergeResults a b).processing_stats.items_processed =
      a.processing_stats.items_processed + b.processing_stats.items_processed := rfl

theorem processBatch_items_processed {ι : Type}
    (f : ι → Except PyString TransformationResult) :
    ∀ (items : List ι) (acc : TransformationResult),
      (∀ i ∈ items, ∃ r, f i = .ok r ∧ r.processing_stats.items_processed = 1) →
      (items.foldl
        (fun acc item =>
          match f item with
          | .ok item_result => mergeResults acc item_result
          | .error _ => acc) acc).processing_stats.items_processed =
        acc.processing_stats.items_processed + items.length
  | [], acc, _ => by simp
  | i :: rest, acc, h => by
    obtain ⟨r, hfi, hr⟩ := h i (by simp)
    rw [List.foldl_cons, hfi]
    rw [processBatch_items_processed f rest (mergeResults acc r)
      (fun j hj => h j (by simp [hj]))]
    simp only [mergeResults_items_processed, hr, List.length_cons]
    omega

/-! ## Social-media transformer per-item processing
(`SocialMediaTransformer._process_item`, `_process_profile`, `_process_post`)

Collaborator effects (cache/DB get-or-create, face matching and
transcription on the local filesystem, the wall clock, ISO-8601 parsing)
are oracles supplied through `TransformEnv`; every theorem below holds for
every oracle. -/

/-- Outcome of `_analyze_media` as consumed by the per-item functions. -/
structure MediaAnalysisOut where
  face_match_found : Bool
  transcription : Option PyString
  identities_detected : List PersonalIdentityType

/-- External collaborators of the per-item functions. -/
structure TransformEnv where
  getOrCreateFootprint :
    PyString → DigitalFootprintType → Option PyString → DigitalFootprintRec × Bool
  analyzeMedia : PyString → DigitalFootprintType → MediaAnalysisOut
  parseTimestamp : PyString → Option Timestamp
  now : Timestamp

/-- One flattened social-media item, after `_async_transform_data` tagged
it with `platform` and `item_type`; absent JSON keys default to empty. -/
structure SMItem where
  item_type : PyString
  platform : PyString
  username : PyString
  first_name : PyString
  last_name : PyString
  display_name : PyString
  bio : PyString
  email : PyString
  phone : PyString
  work : PyString
  education : PyString
  profile_picture_url : Option PyString
  url : PyString
  content : PyString
  location : PyString
  timestamp : Option PyString
  post_type : Option PyString
  result_type : Option PyString
deriving Repr, DecidableEq

/-- `SocialMediaTransformer._get_profile_url`. -/
def getProfileUrl (profile : SMItem) : PyString :=
  if !profile.username.isEmpty && !profile.platform.isEmpty then
    pstr "https://" ++ profile.platform ++ pstr ".com/" ++ profile.username
  else
    pstr "https://" ++ profile.platform ++ pstr ".com/profile/unknown"

/-- `BaseTransformer._determine_footprint_type`. -/
def determineFootprintType (item : SMItem) : DigitalFootprintType :=
  match item.post_type with
  | some pt =>
    if pt = pstr "image" then .image else if pt = pstr "video" then .video else .text
  | none =>
    match item.result_type with
    | some rt =>
      if rt = pstr "image" then .image else if rt = pstr "video" then .video else .text
    | none =>
      let media := if !item.url.isEmpty then item.url else pyVal item.profile_picture_url
      if media.isEmpty then .text
      else
        let ext := pyLower (pySuffix (pathName media))
        if imageSuffixes.contains ext then .image
        else if videoSuffixes.contains ext then .video
        else .text

/-- `SocialMediaTransformer._analyze_profile_for_identities`. -/
def analyzeProfileForIdentities (u : PyUser) (profile : SMItem) : List PersonalIdentityType :=
  let combined := pyLower (List.intercalate spc
    [profile.display_name, profile.bio, profile.first_name, profile.last_name,
     profile.work, profile.education])
  analyzeTextForIdentities u combined ++
  (if !profile.email.isEmpty && (pyLower profile.email == pyLower u.email) then
    [PersonalIdentityType.name] else []) ++
  (if !profile.phone.isEmpty &&
      (match u.phone with | some p => profile.phone == p | none => false) then
    [PersonalIdentityType.phone] else [])

/-- `SocialMediaTransformer._analyze_post_for_identities`. -/
def analyzePostForIdentities (u : PyUser) (post : SMItem) : List PersonalIdentityType :=
  analyzeTextForIdentities u (pyLower (post.content ++ spc ++ post.location))

/-- The `for identity_type in set(identities_detected)` loop: track each
deduplicated facet, counting the new ones into `identities_detected`. -/
def trackIdentityLoop (fp : DigitalFootprintRec) (identities : List PersonalIdentityType)
    (r : TransformationResult) : TransformationResult :=
  identities.dedup.foldl
    (fun acc it =>
      let tracked := trackPendingIdentity acc fp it
      if tracked.1 then
        { tracked.2 with processing_stats := { tracked.2.processing_stats with
            identities_detected := tracked.2.processing_stats.identities_detected + 1 } }
      else tracked.2)
    r

/-- `SocialMediaTransformer._process_profile`.  The `try` body's stats
increments are reflected in the final record; the inner `except` only
swallows collaborator errors, which the oracle model cannot raise. -/
def processProfile (env : TransformEnv) (u : PyUser) (profile : SMItem) :
    TransformationResult :=
  let profile_url := getProfileUrl profile
  let footprint_type :=
    if pyTruthy profile.profile_picture_url then DigitalFootprintType.image
    else DigitalFootprintType.text
  let fpn := env.getOrCreateFootprint profile_url footprint_type
    (if footprint_type = .image then profile.profile_picture_url else none)
  let fp := fpn.1
  let is_new := fpn.2
  let doMedia := pyTruthy fp.media_filepath && (footprint_type == DigitalFootprintType.image)
  let media := env.analyzeMedia (pyVal fp.media_filepath) footprint_type
  let identities_detected :=
    analyzeProfileForIdentities u profile ++
    (if doMedia then media.identities_detected else [])
  let r1 := { TransformationResult.empty with
    new_digital_footprints := if is_new then [fp] else [] }
  let r2 := trackIdentityLoop fp identities_detected r1
  let r3 := (trackPendingActivityLog r2 fp env.now).2
  { r3 with processing_stats := { r3.processing_stats with
      items_processed := 1
      footprints_found := 1
      new_footprints := if is_new then 1 else 0
      existing_footprints := if is_new then 0 else 1
      media_files_processed := if doMedia then 1 else 0
      face_matches_found := if doMedia && media.face_match_found then 1 else 0 } }

/-- `SocialMediaTransformer._process_post`; a post without a URL is
counted and skipped. -/
def processPost (env : TransformEnv) (u : PyUser) (post : SMItem) : TransformationResult :=
  if post.url.isEmpty then
    { TransformationResult.empty with
      processing_stats := { ProcessingStats.zero with items_processed := 1 } }
  else
    let footprint_type := determineFootprintType post
    let isMediaType :=
      footprint_type == DigitalFootprintType.image ||
      footprint_type == DigitalFootprintType.video
    let fpn := env.getOrCreateFootprint post.url footprint_type
      (if isMediaType then some post.url else none)
    let fp := fpn.1
    let is_new := fpn.2
    let doMedia := pyTruthy fp.media_filepath && isMediaType
    let media := env.analyzeMedia (pyVal fp.media_filepath) footprint_type
    let identities_detected :=
      analyzePostForIdentities u post ++
      (if doMedia then media.identities_detected else [])
    let ts :=
      match post.timestamp with
      | some s => if s.isEmpty then env.now else (env.parseTimestamp s).getD env.now
      | none => env.now
    let r1 := { TransformationResult.empty with
      new_digital_footprints := if is_new then [fp] else [] }
    let r2 := trackIdentityLoop fp identities_detected r1
    let r3 := (trackPendingActivityLog r2 fp ts).2
    { r3 with processing_stats := { r3.processing_stats with
        items_processed := 1
        footprints_found := 1
        new_footprints := if is_new then 1 else 0
        existing_footprints := if is_new then 0 else 1
        media_files_processed := if doMedia then 1 else 0
        face_matches_found := if doMedia && media.face_match_found then 1 else 0
        videos_transcribed := if doMedia && pyTruthy media.transcription then 1 else 0 } }

/-- `SocialMediaTransformer._process_item`: dispatch on the `item_type`
tag; an unknown tag raises `TransformationError`. -/
def smProcessItem (env : TransformEnv) (u : PyUser) (item : SMItem) :
    Except PyString TransformationResult :=
  if item.item_type == pstr "profile" then .ok (processProfile env u item)
  else if item.item_type == pstr "post" then .ok (processPost env u item)
  else .error (pstr "Invalid item_type for SocialMediaTransformer")

theorem processProfile_one_item (env : TransformEnv) (u : PyUser) (p : SMItem) :
    (processProfile env u p).processing_stats.items_processed = 1 := rfl

theorem processPost_one_item (env : TransformEnv) (u : PyUser) (p : SMItem) :
    (processPost env u p).processing_stats.items_processed = 1 := by
  unfold processPost
  split <;> rfl

theorem smProcessItem_valid (env : TransformEnv) (u : PyUser) (i : SMItem)
    (h : i.item_type = pstr "profile" ∨ i.item_type = pstr "post") :
    ∃ r, smProcessItem env u i = .ok r ∧ r.processing_stats.items_processed = 1 := by
  rcases h with h | h <;> rw [smProcessItem, h]
  · exact ⟨_, by simp, processProfile_one_item env u i⟩
  · exact ⟨_, by simp [pstr], processPost_one_item env u i⟩

theorem processAllBatches_chunks_items {ι : Type}
    (f : ι → Except PyString TransformationResult) :
    ∀ (chunks : List (List ι)) (main : TransformationResult),
      (∀ i ∈ chunks.flatten, ∃ r, f i = .ok r ∧ r.processing_stats.items_processed = 1) →
      (chunks.foldl (fun main chunk => mergeResults main (processBatch f chunk))
          main).processing_stats.items_processed =
        main.processing_stats.items_processed + chunks.flatten.length
  | [], main, _ => by simp
  | c :: rest, main, h => by
    rw [List.foldl_cons,
      processAllBatches_chunks_items f rest (mergeResults main (processBatch f c))
        (fun i hi => h i (by simp [List.flatten_cons, hi]))]
    have hc : (processBatch f c).processing_stats.items_processed = c.length := by
      have := processBatch_items_processed f c TransformationResult.empty
        (fun i hi => h i (by simp [List.flatten_cons, hi]))
      simpa [processBatch, TransformationResult.empty, ProcessingStats.zero] using this
    simp only [mergeResults_items_processed, hc, List.flatten_cons, List.length_append]
    omega

/-- C8 amended: for every oracle environment, every subject, every list of
items all tagged `profile` or `post` (as the transformer's flattening step
always tags them), and every chunk size in 1..len(items), the merged
`items_processed` counter equals the input length.  The tag hypothesis is
necessary: an untagged item raises `TransformationError`, is skipped by
the per-item guard, and is not counted. -/
theorem batch_pipeline_count_amended (env : TransformEnv) (u : PyUser)
    (items : List SMItem) (cs : Nat) (h1 : 1 ≤ cs) (_h2 : cs ≤ items.length)
    (hvalid : ∀ i ∈ items, i.item_type = pstr "profile" ∨ i.item_type = pstr "post") :
    (processAllBatchesWith (smProcessItem env u) items cs).processing_stats.items_processed =
      items.length := by
  unfold processAllBatchesWith
  by_cases he : items.isEmpty
  · rw [if_pos he]
    rw [List.isEmpty_iff.mp he]
    rfl
  · rw [if_neg he]
    have hcs' : cs - 1 + 1 = cs := by omega
    have hflat : (chunkData items cs).flatten = items := by
      have h := chunkData_flatten items.length items (cs - 1) le_rfl
      rwa [hcs'] at h
    rw [processAllBatches_chunks_items (smProcessItem env u) (chunkData items cs)
      TransformationResult.empty
      (fun i hi => smProcessItem_valid env u i (hvalid i (hflat ▸ hi)))]
    rw [hflat]
    simp [TransformationResult.empty, ProcessingStats.zero]

/-- An `SMItem` with every key absent. -/
def emptySMItem : SMItem :=
  { item_type := [], platform := [], username := [], first_name := [], last_name := []
    display_name := [], bio := [], email := [], phone := [], work := [], education := []
    profile_picture_url := none, url := [], content := [], location := []
    timestamp := none, post_type := none, result_type := none }

/-- An item whose `item_type` tag is neither `profile` nor `post`. -/
def bogusItem : SMItem := { emptySMItem with item_type := pstr "comment" }

/-- A concrete profile item. -/
def profileItem : SMItem :=
  { emptySMItem with
    item_type := pstr "profile"
    platform := pstr "facebook"
    username := pstr "jane_d" }

/-- A concrete post item. -/
def postItem : SMItem :=
  { emptySMItem with
    item_type := pstr "post"
    platform := pstr "facebook"
    url := pstr "https://facebook.com/p/1"
    post_type := some (pstr "text_only")
    content := pstr "hello" }

/-- A concrete oracle environment for counterexamples and witnesses. -/
def trivialEnv : TransformEnv :=
  { getOrCreateFootprint := fun ref t m =>
      ({ id := none, ftype := t, media_filepath := m, reference_url := ref
         source_id := none }, true)
    analyzeMedia := fun _ _ => ⟨false, none, []⟩
    parseTimestamp := fun _ => none
    now := 0 }

/-- C8 counterexample: a single item with an unknown `item_type` raises in
`_process_item`, is caught and skipped by the batch guard, and the merged
`items_processed` is 0, not the input length 1. -/
theorem batch_pipeline_count_counterexample :
    (processAllBatchesWith (smProcessItem trivialEnv janeUser)
        [bogusItem] 1).processing_stats.items_processed = 0 ∧
    ¬ ((processAllBatchesWith (smProcessItem trivialEnv janeUser)
        [bogusItem] 1).processing_stats.items_processed = [bogusItem].length) := by
  have hch : chunkData [bogusItem] 1 = [[bogusItem]] := by simp [chunkData]
  unfold processAllBatchesWith
  rw [hch]
  decide

/-- C8 witness: the amended theorem at a concrete profile and post with
chunk size 1. -/
theorem batch_pipeline_count_witness :
    (processAllBatchesWith (smProcessItem trivialEnv janeUser)
        [profileItem, postItem] 1).processing_stats.items_processed = 2 := by
  have h := batch_pipeline_count_amended trivialEnv janeUser [profileItem, postItem] 1
    (by decide) (by decide) (by decide)
  simpa using h

/-! ## C10: the merged pending maps never hold duplicates -/

/-- Every pending list of the map is duplicate-free. -/
def pendingMapNodup {α : Type} (m : PendingMap α) : Prop := ∀ kv ∈ m, kv.2.Nodup

/-- Both pending maps of a result are duplicate-free. -/
def resultPendingNodup (r : TransformationResult) : Prop :=
  pendingMapNodup r.pending_identities ∧ pendingMapNodup r.pending_activity_logs

theorem alistSet_nodup {α : Type} (m : PendingMap α) (k : PyString) (v : List α)
    (hm : pendingMapNodup m) (hv : v.Nodup) : pendingMapNodup (alistSet m k v) := by
  induction m with
  | nil =>
    intro kv hkv
    simp only [alistSet, List.mem_singleton] at hkv
    rw [hkv]
    exact hv
  | cons kv2 rest ih =>
    intro kv hkv
    rw [show alistSet (kv2 :: rest) k v =
        if kv2.1 == k then (k, v) :: rest else kv2 :: alistSet rest k v from rfl] at hkv
    split at hkv
    · rcases List.mem_cons.mp hkv with rfl | hmem
      · exact hv
      · exact hm kv (List.mem_cons_of_mem kv2 hmem)
    · rcases List.mem_cons.mp hkv with rfl | hmem
      · exact hm kv (List.mem_cons_self _ _)
      · exact ih (fun x hx => hm x (List.mem_cons_of_mem kv2 hx)) kv hmem

theorem mergePending_nodup {α : Type} [DecidableEq α] :
    ∀ (incoming main : PendingMap α), pendingMapNodup main →
      pendingMapNodup (mergePending main incoming)
  | [], main, h => h
  | kv :: rest, main, h => by
    rw [show mergePending main (kv :: rest) =
        mergePending (alistSet main kv.1 (((alistGet main kv.1).getD [] ++ kv.2).dedup))
          rest from rfl]
    exact mergePending_nodup rest _ (alistSet_nodup _ _ _ h (List.nodup_dedup _))

theorem mergeResults_nodup (main item : TransformationResult)
    (h : resultPendingNodup main) : resultPendingNodup (mergeResults main item) :=
  ⟨mergePending_nodup item.pending_identities main.pending_identities h.1,
   mergePending_nodup item.pending_activity_logs main.pending_activity_logs h.2⟩

theorem empty_resultPendingNodup : resultPendingNodup TransformationResult.empty := by
  constructor <;> intro kv hkv <;> exact absurd hkv (List.not_mem_nil kv)

theorem processBatch_fold_nodup {ι : Type}
    (f : ι → Except PyString TransformationResult) :
    ∀ (items : List ι) (acc : TransformationResult), resultPendingNodup acc →
      resultPendingNodup (items.foldl
        (fun acc item =>
          match f item with
          | .ok item_result => mergeResults acc item_result
          | .error _ => acc) acc)
  | [], _, h => h
  | i :: rest, acc, h => by
    rw [List.foldl_cons]
    cases hfi : f i with
    | ok r => exact processBatch_fold_nodup f rest _ (mergeResults_nodup acc r h)
    | error e => exact processBatch_fold_nodup f rest acc h

theorem processAll_fold_nodup {ι : Type}
    (f : ι → Except PyString TransformationResult) :
    ∀ (chunks : List (List ι)) (main : TransformationResult), resultPendingNodup main →
      resultPendingNodup (chunks.foldl
        (fun main chunk => mergeResults main (processBatch f chunk)) main)
  | [], _, h => h
  | c :: rest, main, h => by
    rw [List.foldl_cons]
    exact processAll_fold_nodup f rest _ (mergeResults_nodup main (processBatch f c) h)

/-- C10: every result produced by `_process_batch`,
`_process_all_batches` (with any chunk size, including the computed one)
and `UnifiedTransformer._merge_results` has duplicate-free
pending-identity and pending-activity lists under every reference URL;
`_merge_results` preserves the invariant from any invariant-satisfying
accumulator (its accumulator starts empty in `_async_transform_data`). -/
theorem merge_pending_nodup_invariant :
    (∀ (ι : Type) (f : ι → Except PyString TransformationResult) (items : List ι),
      resultPendingNodup (processBatch f items)) ∧
    (∀ (ι : Type) (f : ι → Except PyString TransformationResult)
      (items : List ι) (cs : Nat), resultPendingNodup (processAllBatchesWith f items cs)) ∧
    (∀ (ι : Type) (f : ι → Except PyString TransformationResult)
      (cpuCount : Nat) (items : List ι),
      resultPendingNodup (processAllBatches f cpuCount items)) ∧
    (∀ main item : TransformationResult, resultPendingNodup main →
      resultPendingNodup (mergeResults main item)) := by
  have hbatch : ∀ (ι : Type) (f : ι → Except PyString TransformationResult)
      (items : List ι), resultPendingNodup (processBatch f items) :=
    fun ι f items => processBatch_fold_nodup f items _ empty_resultPendingNodup
  have hall : ∀ (ι : Type) (f : ι → Except PyString TransformationResult)
      (items : List ι) (cs : Nat), resultPendingNodup (processAllBatchesWith f items cs) := by
    intro ι f items cs
    unfold processAllBatchesWith
    split
    · exact empty_resultPendingNodup
    · exact processAll_fold_nodup f _ _ empty_resultPendingNodup
  exact ⟨hbatch, hall, fun ι f cpu items => hall ι f items _, fun main item h =>
    mergeResults_nodup main item h⟩

/-- A result holding duplicated pending facts, exercising the dedup. -/
def dupResult : TransformationResult :=
  { TransformationResult.empty with
    pending_identities :=
      [(pstr "https://facebook.com/jane_d",
        [PersonalIdentityType.phone, PersonalIdentityType.phone])]
    pending_activity_logs := [(pstr "https://facebook.com/jane_d", [5, 5])] }

/-- C10 witness: `_merge_results` applied to an empty accumulator and a
duplicate-bearing input yields duplicate-free pending lists. -/
theorem merge_pending_nodup_witness :
    resultPendingNodup (mergeResults TransformationResult.empty dupResult) :=
  merge_pending_nodup_invariant.2.2.2 TransformationResult.empty dupResult
    empty_resultPendingNodup

/-! ## Social-media extraction: profile and post matching
(`SocialMediaExtractor` in `src/extract/social_media_extractor.py`)

Concurrency model (default FIFO asyncio loop; the chunk coroutines
contain no awaits): each platform task first runs `_scan_platform_profiles`.
A platform with a nonempty raw profile list schedules its profile-chunk
tasks and suspends on their gather; its resumption — which aggregates the
chunk username sets into the shared `_discovered_usernames` and only then
schedules its post-chunk tasks — is queued behind every other platform's
resumption, so the post scans of all such platforms run after ALL
platforms' usernames are aggregated and see the full union.  A platform
whose raw profile list is empty early-returns from the profile scan
without suspending, so its post-chunk tasks are scheduled and run in the
first round, before any aggregation: its posts are matched against the
still-empty shared set.  Within one platform, profile matching always
runs and completes before its own post matching
(`_extract_platform_data`). -/

/-- A raw social-media profile record (absent keys default to empty). -/
structure SMProfile where
  first_name : PyString
  last_name : PyString
  email : PyString
  phone : PyString
  address : PyString
  username : PyString
deriving Repr, DecidableEq

/-- A raw social-media post record. -/
structure SMPost where
  username : PyString
  tagged_users : List PyString
  post_type : PyString
deriving Repr, DecidableEq

/-- One platform's simulation data. -/
structure PlatformData where
  profiles : List SMProfile
  posts : List SMPost
deriving Repr, DecidableEq

/-- Python `str.strip` whitespace characters. -/
def isPySpace (c : Nat) : Bool := c == 32 || c == 9 || c == 10 || c == 13

/-- Python `str.strip`. -/
def pyStrip (s : PyString) : PyString :=
  ((s.dropWhile isPySpace).reverse.dropWhile isPySpace).reverse

/-- `SocialMediaExtractor._profile_matches_user`. -/
def profileMatchesUser (u : PyUser) (ids : UserIdentifiers) (p : SMProfile) : Bool :=
  let profile_first := pyStrip (pyLower p.first_name)
  let profile_last := pyStrip (pyLower p.last_name)
  let name_match :=
    (profile_first == pyLower u.first_name) && (profile_last == pyLower u.last_name)
  let profile_email := pyStrip (pyLower p.email)
  let email_match := !profile_email.isEmpty && ids.emails.contains profile_email
  let profile_phone := pyStrip p.phone
  let phone_match := !profile_phone.isEmpty && ids.phones.contains profile_phone
  let profile_address := pyStrip (pyLower p.address)
  let address_match :=
    !profile_address.isEmpty && ids.addresses.any (fun a => pyContains profile_address a)
  name_match || email_match || phone_match || address_match

/-- `SocialMediaExtractor._post_relates_to_user`, a pure function of the
current discovered-username set. -/
def postRelatesToUser (discovered : List PyString) (post : SMPost) : Bool :=
  discovered.contains post.username ||
  post.tagged_users.any (fun t => discovered.contains t)

/-- `BaseExtractor._calculate_chunk_size` (the extractor variant). -/
def extractorChunkSize (total_items : Nat) : Nat :=
  if total_items ≤ 50 then total_items
  else if total_items ≤ 1000 then 100
  else if total_items ≤ 10000 then 500
  else 1000

/-- `_scan_platform_profiles`: chunked scan collecting matching profiles
and their non-empty usernames (the per-chunk username sets are unioned;
the list model preserves membership). -/
def scanPlatformProfiles (u : PyUser) (ids : UserIdentifiers)
    (profiles : List SMProfile) : List SMProfile × List PyString :=
  if profiles.isEmpty then ([], [])
  else
    let chunks := chunkData profiles (extractorChunkSize profiles.length)
    ((chunks.map (fun chunk => chunk.filter (profileMatchesUser u ids))).flatten,
     (chunks.map (fun chunk =>
        ((chunk.filter (profileMatchesUser u ids)).map (fun p => p.username)).filter
          (fun s => !s.isEmpty))).flatten)

/-- `_scan_platform_posts`: chunked scan keeping the posts that relate to
the user (the per-type grouping preserves exactly this membership). -/
def scanPlatformPosts (discovered : List PyString) (posts : List SMPost) : List SMPost :=
  if posts.isEmpty then []
  else
    ((chunkData posts (extractorChunkSize posts.length)).map
      (fun chunk => chunk.filter (postRelatesToUser discovered))).flatten

/-- `_extract_data_async`: per platform, the matched profiles and the
related posts; second component is the final shared discovered-username
set.  A platform with a nonempty profile list scans its posts against the
full union; a platform with an empty profile list scans its posts before
any aggregation, i.e. against the empty set (see the concurrency model
above). -/
def socialMediaExtract (u : PyUser) (platforms : List PlatformData) :
    List (List SMProfile × List SMPost) × List PyString :=
  let ids := generateUserIdentifiers u
  let discovered :=
    (platforms.map (fun pd => (scanPlatformProfiles u ids pd.profiles).2)).flatten
  (platforms.map (fun pd =>
      ((scanPlatformProfiles u ids pd.profiles).1,
       scanPlatformPosts (if pd.profiles.isEmpty then [] else discovered) pd.posts)),
   discovered)

theorem chunked_hom_flatten {α β : Type} (g : List α → List β)
    (hg : ∀ a b, g (a ++ b) = g a ++ g b) (hnil : g [] = []) :
    ∀ chunks : List (List α), (chunks.map g).flatten = g chunks.flatten
  | [] => by simp [hnil]
  | c :: rest => by
    simp only [List.map_cons, List.flatten_cons, chunked_hom_flatten g hg hnil rest, hg]

theorem extractorChunkSize_pos (total : Nat) (h : 0 < total) :
    0 < extractorChunkSize total := by
  unfold extractorChunkSize
  split <;> (try split) <;> (try split) <;> omega

theorem scanPlatformPosts_eq (discovered : List PyString) (posts : List SMPost) :
    scanPlatformPosts discovered posts = posts.filter (postRelatesToUser discovered) := by
  unfold scanPlatformPosts
  by_cases h : posts.isEmpty
  · rw [if_pos h, List.isEmpty_iff.mp h]
    rfl
  · rw [if_neg h]
    have hne : posts ≠ [] := fun heq => h (by rw [heq]; rfl)
    have hpos : 0 < extractorChunkSize posts.length :=
      extractorChunkSize_pos _ (List.length_pos.mpr hne)
    have hsucc : extractorChunkSize posts.length - 1 + 1 =
        extractorChunkSize posts.length := by omega
    rw [chunked_hom_flatten (fun c => c.filter (postRelatesToUser discovered))
      (fun a b => List.filter_append a b) rfl]
    rw [show chunkData posts (extractorChunkSize posts.length) =
        chunkData posts (extractorChunkSize posts.length - 1 + 1) from by rw [hsucc],
      chunkData_flatten posts.length posts _ le_rfl]

theorem scanPlatformProfiles_eq (u : PyUser) (ids : UserIdentifiers)
    (profiles : List SMProfile) :
    scanPlatformProfiles u ids profiles =
      (profiles.filter (profileMatchesUser u ids),
       ((profiles.filter (profileMatchesUser u ids)).map (fun p => p.username)).filter
         (fun s => !s.isEmpty)) := by
  unfold scanPlatformProfiles
  by_cases h : profiles.isEmpty
  · rw [if_pos h, List.isEmpty_iff.mp h]
    rfl
  · rw [if_neg h]
    have hne : profiles ≠ [] := fun heq => h (by rw [heq]; rfl)
    have hpos : 0 < extractorChunkSize profiles.length :=
      extractorChunkSize_pos _ (List.length_pos.mpr hne)
    have hsucc : extractorChunkSize profiles.length - 1 + 1 =
        extractorChunkSize profiles.length := by omega
    have hflat : (chunkData profiles (extractorChunkSize profiles.length)).flatten =
        profiles := by
      rw [show chunkData profiles (extractorChunkSize profiles.length) =
          chunkData profiles (extractorChunkSize profiles.length - 1 + 1) from by rw [hsucc],
        chunkData_flatten profiles.length profiles _ le_rfl]
    rw [Prod.mk.injEq]
    refine ⟨?_, ?_⟩
    · rw [chunked_hom_flatten (fun c => c.filter (profileMatchesUser u ids))
        (fun a b => List.filter_append a b) rfl, hflat]
    · rw [chunked_hom_flatten (fun c =>
          ((c.filter (profileMatchesUser u ids)).map (fun p => p.username)).filter
            (fun s => !s.isEmpty))
        (fun a b => by simp [List.filter_append]) rfl, hflat]

theorem socialMediaExtract_length (u : PyUser) (platforms : List PlatformData) :
    (socialMediaExtract u platforms).1.length = platforms.length := by
  simp [socialMediaExtract]

/-- C1 amended: on a platform whose raw profile list is nonempty, a post
is kept iff it is one of that platform's posts and its author username or
a tagged username is in the extractor's shared discovered-username set —
the union over ALL platforms of the matched-profile usernames, not only
the same platform's; on a platform whose profile list is empty, the
profile scan returns without suspending and the post scan runs before any
usernames are aggregated into the shared set, so its posts are matched
against the empty set and none are kept.  Profile matching on a platform
still runs and completes before its own post matching. -/
theorem post_matching_amended (u : PyUser) (platforms : List PlatformData)
    (i : Nat) (hi : i < platforms.length) (post : SMPost) :
    (post ∈ ((socialMediaExtract u platforms).1.get
        ⟨i, by rw [socialMediaExtract_length]; exact hi⟩).2 ↔
      (post ∈ (platforms.get ⟨i, hi⟩).posts ∧
        postRelatesToUser
          (if (platforms.get ⟨i, hi⟩).profiles.isEmpty then []
           else (socialMediaExtract u platforms).2) post = true)) ∧
    (∀ d : List PyString, postRelatesToUser d post = true ↔
      (post.username ∈ d ∨ ∃ t ∈ post.tagged_users, t ∈ d)) := by
  constructor
  · have hget : ((socialMediaExtract u platforms).1.get
        ⟨i, by rw [socialMediaExtract_length]; exact hi⟩).2 =
        scanPlatformPosts
          (if (platforms.get ⟨i, hi⟩).profiles.isEmpty then []
           else (socialMediaExtract u platforms).2)
          (platforms.get ⟨i, hi⟩).posts := by
      simp only [socialMediaExtract, List.get_eq_getElem, List.getElem_map]
    rw [hget, scanPlatformPosts_eq, List.mem_filter]
  · intro d
    unfold postRelatesToUser
    simp [List.any_eq_true, List.elem_iff]

/-- A profile matching the subject `janeUser` by exact first/last name. -/
def janeProfile : SMProfile :=
  { first_name := pstr "Jane", last_name := pstr "Doe", email := pstr ""
    phone := pstr "", address := pstr "", username := pstr "jane_d" }

/-- A post authored by the username discovered on the other platform. -/
def crossPost : SMPost :=
  { username := pstr "jane_d", tagged_users := [], post_type := pstr "text_only" }

/-- Platform A: one matching profile, no posts. -/
def platformA : PlatformData := { profiles := [janeProfile], posts := [] }

/-- A profile that does not match the subject. -/
def strangerProfile : SMProfile :=
  { first_name := pstr "Bob", last_name := pstr "Smith", email := pstr ""
    phone := pstr "", address := pstr "", username := pstr "bob_s" }

/-- Platform B: one non-matching profile (so its post scan runs after all
aggregations and sees the shared union), and one post authored by
platform A's discovered username. -/
def platformB : PlatformData := { profiles := [strangerProfile], posts := [crossPost] }

/-- Modelled from the spec's words, for comparison with the code: the
usernames discovered from profiles that matched the subject on one given
platform only. -/
def spec_samePlatformDiscovered (u : PyUser) (pd : PlatformData) : List PyString :=
  (scanPlatformProfiles u (generateUserIdentifiers u) pd.profiles).2

theorem discovered_demo :
    (socialMediaExtract janeUser [platformA, platformB]).2 = [pstr "jane_d"] := by
  show (([platformA, platformB].map (fun pd =>
    (scanPlatformProfiles janeUser (generateUserIdentifiers janeUser) pd.profiles).2)).flatten)
    = [pstr "jane_d"]
  rw [List.map_cons, List.map_cons, List.map_nil,
    scanPlatformProfiles_eq, scanPlatformProfiles_eq]
  decide

/-- C1 counterexample: the post on platform B is extracted even though no
profile matched the subject on platform B — its author's username was
discovered on platform A, so the "same platform" restriction of the claim
is false on the code (the discovered set is shared across platforms). -/
theorem post_matching_counterexample :
    crossPost ∈ ((socialMediaExtract janeUser [platformA, platformB]).1.get
      ⟨1, by rw [socialMediaExtract_length]; decide⟩).2 ∧
    spec_samePlatformDiscovered janeUser platformB = [] ∧
    postRelatesToUser (spec_samePlatformDiscovered janeUser platformB) crossPost = false := by
  refine ⟨?_, ?_, ?_⟩
  · have hget : ((socialMediaExtract janeUser [platformA, platformB]).1.get
        ⟨1, by rw [socialMediaExtract_length]; decide⟩).2 =
        scanPlatformPosts (socialMediaExtract janeUser [platformA, platformB]).2
          platformB.posts := by
      simp only [socialMediaExtract, List.get_eq_getElem, List.getElem_map]
      rfl
    rw [hget, discovered_demo, scanPlatformPosts_eq]
    decide
  · rw [spec_samePlatformDiscovered, scanPlatformProfiles_eq]
    decide
  · rw [spec_samePlatformDiscovered, scanPlatformProfiles_eq]
    decide

/-- C1 witness: the amended theorem at the concrete two-platform input. -/
theorem post_matching_witness :
    postRelatesToUser (socialMediaExtract janeUser [platformA, platformB]).2 crossPost =
      true := by
  refine ((post_matching_amended janeUser [platformA, platformB] 1 (by decide)
    crossPost).2 (socialMediaExtract janeUser [platformA, platformB]).2).mpr (Or.inl ?_)
  rw [discovered_demo]
  decide

/-! ## Load phase: individual-retry footprint insertion
(`Loader._load_digital_footprints_individually` in `src/load/load.py`)

Storage is a list of committed footprint rows in insertion order; ids of
newly flushed rows are assigned from a monotone counter `nextId`.  The
session query returns the first row whose (reference_url, media_filepath)
natural key matches.  In this model the per-footprint queries cannot
raise, so the per-footprint `except` guard is dead. -/

/-- A committed digital-footprint row. -/
structure FootprintRow where
  id : Nat
  reference_url : PyString
  media_filepath : Option PyString
deriving Repr, DecidableEq

/-- The natural-key filter of the existence query. -/
def rowMatches (fp : DigitalFootprintRec) (row : FootprintRow) : Bool :=
  (row.reference_url == fp.reference_url) && (row.media_filepath == fp.media_filepath)

/-- Whether a footprint's natural key exists in storage. -/
def keyInDb (db : List FootprintRow) (fp : DigitalFootprintRec) : Bool :=
  (db.find? (rowMatches fp)).isSome

/-- Number of rows carrying a footprint's natural key. -/
def rowCountFor (db : List FootprintRow) (fp : DigitalFootprintRec) : Nat :=
  (db.filter (rowMatches fp)).length

/-- Result of the individual-retry loop. -/
structure LoadState where
  db : List FootprintRow
  nextId : Nat
  fps : List DigitalFootprintRec
  inserted : Nat
  skipped : Nat
deriving Repr, DecidableEq

/-- `Loader._load_digital_footprints_individually`: for each footprint,
re-check existence by natural key; on a hit adopt the existing id and
count it skipped; on a miss insert singly (flush assigns the next id). -/
def loadFootprintsIndividually (db : List FootprintRow) (nextId : Nat) :
    List DigitalFootprintRec → LoadState
  | [] => ⟨db, nextId, [], 0, 0⟩
  | fp :: rest =>
    match db.find? (rowMatches fp) with
    | some row =>
      let s := loadFootprintsIndividually db nextId rest
      { s with
        fps := { fp with id := some row.id } :: s.fps
        skipped := s.skipped + 1 }
    | none =>
      let s := loadFootprintsIndividually
        (db ++ [⟨nextId, fp.reference_url, fp.media_filepath⟩]) (nextId + 1) rest
      { s with
        fps := { fp with id := some nextId } :: s.fps
        inserted := s.inserted + 1 }

theorem find?_append_of_some {α : Type} (p : α → Bool) :
    ∀ (l1 l2 : List α) (x : α), l1.find? p = some x → (l1 ++ l2).find? p = some x
  | [], _, _, h => by simp [List.find?] at h
  | a :: t, l2, x, h => by
    by_cases hp : p a
    · rw [List.find?_cons_of_pos _ hp] at h
      rw [List.cons_append, List.find?_cons_of_pos _ hp]
      exact h
    · rw [List.find?_cons_of_neg _ hp] at h
      rw [List.cons_append, List.find?_cons_of_neg _ hp]
      exact find?_append_of_some p t l2 x h

theorem keyInDb_append (db extra : List FootprintRow) (fp : DigitalFootprintRec)
    (h : keyInDb db fp = true) : keyInDb (db ++ extra) fp = true := by
  unfold keyInDb at *
  obtain ⟨row, hrow⟩ := Option.isSome_iff_exists.mp h
  rw [find?_append_of_some _ db extra row hrow]
  rfl

theorem find?_append_eq_of_some {α : Type} (p : α → Bool) (l1 l2 : List α) (x : α)
    (h : l1.find? p = some x) : (l1 ++ l2).find? p = l1.find? p := by
  rw [find?_append_of_some p l1 l2 x h, h]

theorem loadFPI_fps_length (fps : List DigitalFootprintRec) :
    ∀ (db : List FootprintRow) (nextId : Nat),
      (loadFootprintsIndividually db nextId fps).fps.length = fps.length := by
  induction fps with
  | nil => intro db nextId; rfl
  | cons fp rest ih =>
    intro db nextId
    unfold loadFootprintsIndividually
    cases hf : db.find? (rowMatches fp) with
    | some row => simpa using ih db nextId
    | none => simpa using ih _ (nextId + 1)

theorem loadFPI_db_grows (fps : List DigitalFootprintRec) :
    ∀ (db : List FootprintRow) (nextId : Nat),
      ∃ extra, (loadFootprintsIndividually db nextId fps).db = db ++ extra := by
  induction fps with
  | nil => intro db nextId; exact ⟨[], by simp [loadFootprintsIndividually]⟩
  | cons fp rest ih =>
    intro db nextId
    unfold loadFootprintsIndividually
    cases hf : db.find? (rowMatches fp) with
    | some row => exact ih db nextId
    | none =>
      obtain ⟨extra, hex⟩ := ih (db ++ [⟨nextId, fp.reference_url, fp.media_filepath⟩])
        (nextId + 1)
      exact ⟨⟨nextId, fp.reference_url, fp.media_filepath⟩ :: extra, by
        simpa [List.append_assoc] using hex⟩

theorem loadFPI_cons_found (db : List FootprintRow) (nextId : Nat)
    (fp : DigitalFootprintRec) (rest : List DigitalFootprintRec) (row : FootprintRow)
    (hf : db.find? (rowMatches fp) = some row) :
    loadFootprintsIndividually db nextId (fp :: rest) =
      { loadFootprintsIndividually db nextId rest with
        fps := { fp with id := some row.id } ::
          (loadFootprintsIndividually db nextId rest).fps
        skipped := (loadFootprintsIndividually db nextId rest).skipped + 1 } := by
  conv_lhs => rw [loadFootprintsIndividually]
  rw [hf]

theorem loadFPI_cons_new (db : List FootprintRow) (nextId : Nat)
    (fp : DigitalFootprintRec) (rest : List DigitalFootprintRec)
    (hf : db.find? (rowMatches fp) = none) :
    loadFootprintsIndividually db nextId (fp :: rest) =
      { loadFootprintsIndividually
          (db ++ [⟨nextId, fp.reference_url, fp.media_filepath⟩]) (nextId + 1) rest with
        fps := { fp with id := some nextId } ::
          (loadFootprintsIndividually
            (db ++ [⟨nextId, fp.reference_url, fp.media_filepath⟩]) (nextId + 1) rest).fps
        inserted := (loadFootprintsIndividually
          (db ++ [⟨nextId, fp.reference_url, fp.media_filepath⟩]) (nextId + 1) rest).inserted
            + 1 } := by
  conv_lhs => rw [loadFootprintsIndividually]
  rw [hf]

theorem loadFPI_adopt :
    ∀ (fps : List DigitalFootprintRec) (db : List FootprintRow) (nextId i : Nat)
      (fp : DigitalFootprintRec) (row : FootprintRow),
      fps[i]? = some fp →
      db.find? (rowMatches fp) = some row →
      ∃ fpOut, (loadFootprintsIndividually db nextId fps).fps[i]? = some fpOut ∧
        fpOut.id = some row.id
  | [], _, _, i, _, _, hget, _ => by simp at hget
  | f :: rest, db, nextId, 0, fp, row, hget, hfind => by
    simp only [List.getElem?_cons_zero, Option.some.injEq] at hget
    subst hget
    rw [loadFPI_cons_found db nextId f rest row hfind]
    exact ⟨{ f with id := some row.id }, by simp, rfl⟩
  | f :: rest, db, nextId, n + 1, fp, row, hget, hfind => by
    simp only [List.getElem?_cons_succ] at hget
    cases hf : db.find? (rowMatches f) with
    | some row2 =>
      rw [loadFPI_cons_found db nextId f rest row2 hf]
      simpa using loadFPI_adopt rest db nextId n fp row hget hfind
    | none =>
      rw [loadFPI_cons_new db nextId f rest hf]
      have hfind2 : (db ++ [(⟨nextId, f.reference_url, f.media_filepath⟩ : FootprintRow)]).find?
          (rowMatches fp) = some row :=
        find?_append_of_some _ db _ row hfind
      simpa using loadFPI_adopt rest _ (nextId + 1) n fp row hget hfind2

theorem loadFPI_count (fps : List DigitalFootprintRec) :
    ∀ (db : List FootprintRow) (nextId : Nat) (fp : DigitalFootprintRec),
      keyInDb db fp = true →
      rowCountFor (loadFootprintsIndividually db nextId fps).db fp = rowCountFor db fp := by
  induction fps with
  | nil => intro db nextId fp _; rfl
  | cons f rest ih =>
    intro db nextId fp hkey
    cases hf : db.find? (rowMatches f) with
    | some row =>
      rw [loadFPI_cons_found db nextId f rest row hf]
      exact ih db nextId fp hkey
    | none =>
      rw [loadFPI_cons_new db nextId f rest hf]
      show rowCountFor (loadFootprintsIndividually
        (db ++ [⟨nextId, f.reference_url, f.media_filepath⟩]) (nextId + 1) rest).db fp =
        rowCountFor db fp
      by_cases hm : rowMatches fp ⟨nextId, f.reference_url, f.media_filepath⟩ = true
      · exfalso
        unfold rowMatches at hm
        simp only [Bool.and_eq_true, beq_iff_eq] at hm
        have hpred : rowMatches fp = rowMatches f := by
          funext r
          unfold rowMatches
          rw [← hm.1, ← hm.2]
        unfold keyInDb at hkey
        rw [hpred, hf] at hkey
        exact absurd hkey (by simp)
      · have hgrow : rowCountFor (db ++ [⟨nextId, f.reference_url, f.media_filepath⟩]) fp =
            rowCountFor db fp := by
          unfold rowCountFor
          rw [List.filter_append]
          simp [List.filter, hm]
        rw [← hgrow]
        exact ih _ (nextId + 1) fp (keyInDb_append db _ fp hkey)

theorem loadFPI_skipped (fps : List DigitalFootprintRec) :
    ∀ (db : List FootprintRow) (nextId : Nat),
      (∃ fp ∈ fps, keyInDb db fp = true) →
      0 < (loadFootprintsIndividually db nextId fps).skipped := by
  induction fps with
  | nil => intro db nextId h; simp at h
  | cons f rest ih =>
    intro db nextId h
    cases hf : db.find? (rowMatches f) with
    | some row =>
      rw [loadFPI_cons_found db nextId f rest row hf]
      simp
    | none =>
      rw [loadFPI_cons_new db nextId f rest hf]
      show 0 < (loadFootprintsIndividually
        (db ++ [⟨nextId, f.reference_url, f.media_filepath⟩]) (nextId + 1) rest).skipped
      obtain ⟨fp, hfp, hkey⟩ := h
      rcases List.mem_cons.mp hfp with rfl | hmem
      · unfold keyInDb at hkey
        rw [hf] at hkey
        exact absurd hkey (by simp)
      · exact ih _ (nextId + 1) ⟨fp, hmem, keyInDb_append db _ fp hkey⟩

theorem loadFPI_keys_present :
    ∀ (fps : List DigitalFootprintRec) (db : List FootprintRow) (nextId i : Nat)
      (fp : DigitalFootprintRec), fps[i]? = some fp →
      keyInDb (loadFootprintsIndividually db nextId fps).db fp = true
  | [], _, _, i, _, hget => by simp at hget
  | f :: rest, db, nextId, 0, fp, hget => by
    simp only [List.getElem?_cons_zero, Option.some.injEq] at hget
    subst hget
    cases hf : db.find? (rowMatches f) with
    | some row =>
      rw [loadFPI_cons_found db nextId f rest row hf]
      show keyInDb (loadFootprintsIndividually db nextId rest).db f = true
      obtain ⟨extra, hex⟩ := loadFPI_db_grows rest db nextId
      rw [hex]
      exact keyInDb_append db extra f (by unfold keyInDb; rw [hf]; rfl)
    | none =>
      rw [loadFPI_cons_new db nextId f rest hf]
      show keyInDb (loadFootprintsIndividually
        (db ++ [⟨nextId, f.reference_url, f.media_filepath⟩]) (nextId + 1) rest).db f = true
      obtain ⟨extra, hex⟩ :=
        loadFPI_db_grows rest (db ++ [⟨nextId, f.reference_url, f.media_filepath⟩]) (nextId + 1)
      rw [hex]
      refine keyInDb_append _ extra f ?_
      unfold keyInDb
      rw [List.find?_append, hf]
      have : List.find? (rowMatches f)
          [(⟨nextId, f.reference_url, f.media_filepath⟩ : FootprintRow)] =
          some ⟨nextId, f.reference_url, f.media_filepath⟩ := by
        simp [List.find?, rowMatches]
      rw [Option.none_or, this]
      rfl
  | f :: rest, db, nextId, n + 1, fp, hget => by
    simp only [List.getElem?_cons_succ] at hget
    cases hf : db.find? (rowMatches f) with
    | some row =>
      rw [loadFPI_cons_found db nextId f rest row hf]
      exact loadFPI_keys_present rest db nextId n fp hget
    | none =>
      rw [loadFPI_cons_new db nextId f rest hf]
      exact loadFPI_keys_present rest _ (nextId + 1) n fp hget

/-- C9: in the individual-retry fallback, a footprint whose natural key
already exists in storage adopts the first matching row's id, adds no row
(the row count for every initially present natural key is unchanged), and
bumps the skipped counter (nonzero when at least one such footprint
exists); a footprint whose key is absent is inserted singly, so every
processed footprint's key exists in storage afterwards. -/
theorem load_individual_retry (db : List FootprintRow) (nextId : Nat)
    (fps : List DigitalFootprintRec) :
    ((loadFootprintsIndividually db nextId fps).fps.length = fps.length) ∧
    (∀ (i : Nat) (fp : DigitalFootprintRec) (row : FootprintRow),
      fps[i]? = some fp → db.find? (rowMatches fp) = some row →
      ∃ fpOut, (loadFootprintsIndividually db nextId fps).fps[i]? = some fpOut ∧
        fpOut.id = some row.id) ∧
    (∀ fp : DigitalFootprintRec, keyInDb db fp = true →
      rowCountFor (loadFootprintsIndividually db nextId fps).db fp = rowCountFor db fp) ∧
    ((∃ fp ∈ fps, keyInDb db fp = true) →
      0 < (loadFootprintsIndividually db nextId fps).skipped) ∧
    (∀ (i : Nat) (fp : DigitalFootprintRec), fps[i]? = some fp →
      keyInDb (loadFootprintsIndividually db nextId fps).db fp = true) :=
  ⟨loadFPI_fps_length fps db nextId,
   fun i fp row hget hfind => loadFPI_adopt fps db nextId i fp row hget hfind,
   fun fp hkey => loadFPI_count fps db nextId fp hkey,
   fun hex => loadFPI_skipped fps db nextId hex,
   fun i fp hget => loadFPI_keys_present fps db nextId i fp hget⟩

/-- A committed row occupying the natural key of `demoFootprint`. -/
def demoRow : FootprintRow :=
  { id := 7, reference_url := pstr "https://facebook.com/jane_d"
    media_filepath := none }

/-- An in-memory footprint whose natural key equals `demoRow`'s. -/
def demoFootprint : DigitalFootprintRec :=
  { id := none, ftype := DigitalFootprintType.text, media_filepath := none
    reference_url := pstr "https://facebook.com/jane_d", source_id := some 1 }

/-- An in-memory footprint whose natural key is absent from storage. -/
def freshFootprint : DigitalFootprintRec :=
  { id := none, ftype := DigitalFootprintType.text, media_filepath := none
    reference_url := pstr "https://x.com/jane_d", source_id := some 1 }

/-- C9 witness: one existing-key footprint adopts id 7 with the skipped
counter at 1 and no duplicate row; one absent-key footprint is inserted. -/
theorem load_individual_retry_witness :
    (∃ fpOut, (loadFootprintsIndividually [demoRow] 10
        [demoFootprint, freshFootprint]).fps[0]? = some fpOut ∧
      fpOut.id = some demoRow.id) ∧
    rowCountFor (loadFootprintsIndividually [demoRow] 10
      [demoFootprint, freshFootprint]).db demoFootprint = rowCountFor [demoRow] demoFootprint ∧
    0 < (loadFootprintsIndividually [demoRow] 10 [demoFootprint, freshFootprint]).skipped ∧
    keyInDb (loadFootprintsIndividually [demoRow] 10
      [demoFootprint, freshFootprint]).db freshFootprint = true :=
  ⟨(load_individual_retry [demoRow] 10 [demoFootprint, freshFootprint]).2.1 0
      demoFootprint demoRow (by decide) (by decide),
   (load_individual_retry [demoRow] 10 [demoFootprint, freshFootprint]).2.2.1
      demoFootprint (by decide),
   (load_individual_retry [demoRow] 10 [demoFootprint, freshFootprint]).2.2.2.1
      ⟨demoFootprint, by decide, by decide⟩,
   (load_individual_retry [demoRow] 10 [demoFootprint, freshFootprint]).2.2.2.2 1
      freshFootprint (by decide)⟩
